import Mathlib

/-!
Verification of the ProjectHub embedding service
(src/embedding-service/main.py), a FastAPI application that wraps a
sentence-transformers model behind three HTTP endpoints.

The service is embedded shallowly: request handlers become pure
state-passing Lean functions.  The external pretrained model is opaque
in the source (its encode call is delegated to the sentence-transformers
library), so it is represented here as an abstract function parameter
held in the service state; its numeric vectors are lists of rationals.
A raised Python exception becomes the error branch of an Except value,
and a FastAPI HTTPException becomes an HTTPError record carrying the
status code and detail string, mirroring main.py line by line.
-/

/-- Numeric embedding vector, modelling one row of the numpy array
returned by model.encode after tolist conversion. -/
abbrev Vec := List ℚ

/-- Outcome of the external encode call: either a list of vectors or an
exception message (any Python exception propagating out of encode). -/
abbrev EncodeResult := Except String (List Vec)

/-- Abstract type of the loaded sentence-transformers model: a batch
encode function taking the texts and the normalize flag, as invoked at
main.py lines 90-94. -/
abbrev EncodeFn := List String → Bool → EncodeResult

/-- Process-wide mutable state of the service: the model global of
main.py line 29, which is None until the startup hook assigns it. -/
structure ServiceState where
  model : Option EncodeFn

/-- MODEL_NAME constant of main.py line 30. -/
def MODEL_NAME : String := "all-MiniLM-L6-v2"

/-- EmbeddingRequest pydantic model of main.py lines 44-46 after
validation, with the normalize default already applied. -/
structure EmbeddingRequest where
  texts : List String
  normalize : Bool := true

/-- Raw JSON body of a POST /embed request before pydantic fills in
defaults: the normalize field may be absent. -/
structure EmbedBody where
  texts : List String
  normalize : Option Bool

/-- Pydantic parsing of the request body: an absent normalize field
takes the declared default true (main.py line 46). -/
def parseEmbedBody (b : EmbedBody) : EmbeddingRequest :=
  { texts := b.texts, normalize := b.normalize.getD true }

/-- EmbeddingResponse pydantic model of main.py lines 48-51. -/
structure EmbeddingResponse where
  embeddings : List Vec
  model : String
  dimensions : Nat

/-- HTTPException as raised by the handlers: status code plus detail. -/
structure HTTPError where
  status_code : Nat
  detail : String

/-- Response of the GET /health endpoint (main.py lines 56-60). -/
structure HealthResponse where
  status : String
  model : String
  model_loaded : Bool

/-- Response of the GET / endpoint (main.py lines 114-123). -/
structure RootResponse where
  service : String
  model : String
  dimensions : Nat
  endpoints : List (String × String)

/-- dimensions field computation of main.py line 104:
len(embeddings_list[0]) if embeddings_list else 0. -/
def dimensionsOf : List Vec → Nat
  | [] => 0
  | v :: _ => v.length

/-- generate_embeddings handler for POST /embed (main.py lines 62-109).
The first component of the result is the service state after the
request; the second is either an HTTPError (a raised HTTPException) or
the successful EmbeddingResponse.  The three guards and the try/except
around encode follow the source order exactly. -/
def generate_embeddings (st : ServiceState) (request : EmbeddingRequest) :
    ServiceState × Except HTTPError EmbeddingResponse :=
  match st.model with
  | none => (st, .error ⟨503, "Model not loaded"⟩)
  | some encode =>
    if request.texts = [] then
      (st, .error ⟨400, "No texts provided"⟩)
    else if request.texts.length > 100 then
      (st, .error ⟨400, "Maximum 100 texts per request"⟩)
    else
      match encode request.texts request.normalize with
      | .error e => (st, .error ⟨500, e⟩)
      | .ok embeddings_list =>
        (st, .ok { embeddings := embeddings_list,
                   model := MODEL_NAME,
                   dimensions := dimensionsOf embeddings_list })

/-- health_check handler for GET /health (main.py lines 53-60). -/
def health_check (st : ServiceState) : ServiceState × HealthResponse :=
  (st, { status := "healthy",
         model := MODEL_NAME,
         model_loaded := st.model.isSome })

/-- root handler for GET / (main.py lines 111-123). -/
def root (st : ServiceState) : ServiceState × RootResponse :=
  (st, { service := "ProjectHub Embedding Service",
         model := MODEL_NAME,
         dimensions := 384,
         endpoints := [("health", "/health"),
                       ("embed", "/embed (POST)"),
                       ("docs", "/docs")] })

/-- Squared L2 norm of a vector. -/
def sqNorm (v : Vec) : ℚ := (v.map (fun x => x * x)).sum

/-- Every vector of the list has the given length. -/
def allLength (d : Nat) (vs : List Vec) : Prop := ∀ v ∈ vs, v.length = d

/-- Result carries an HTTPError with the given status code. -/
def errorStatus (r : Except HTTPError EmbeddingResponse) (s : Nat) : Prop :=
  ∃ d, r = .error ⟨s, d⟩

/-- Concrete encode function used in witnesses: one unit vector per
input text, never failing. -/
def encodeUnit : EncodeFn := fun ts _ => .ok (ts.map (fun _ => [1]))

/-- Concrete encode function used in witnesses: always raises. -/
def encodeFail : EncodeFn := fun _ _ => .error "boom"

/-- C1: with the model loaded and a non-empty texts list of at most 100
strings, the response embeddings list is exactly the list returned by
encode, hence has one vector per input string in input order whenever
encode returns one vector per input in input order. -/
theorem embed_count_and_order
    (st : ServiceState) (req : EmbeddingRequest) (encode : EncodeFn)
    (E : List Vec)
    (hm : st.model = some encode)
    (hne : req.texts ≠ [])
    (hle : req.texts.length ≤ 100)
    (henc : encode req.texts req.normalize = .ok E)
    (hcount : E.length = req.texts.length) :
    ∃ resp, (generate_embeddings st req).2 = .ok resp ∧
      resp.embeddings = E ∧ resp.embeddings.length = req.texts.length := by
  refine ⟨⟨E, MODEL_NAME, dimensionsOf E⟩, ?_, rfl, hcount⟩
  unfold generate_embeddings
  rw [hm]
  simp only [if_neg hne, if_neg (by omega : ¬req.texts.length > 100), henc]

/-- Witness for embed_count_and_order at a concrete loaded state and a
one-element batch. -/
theorem embed_count_and_order_witness :
    ∃ resp,
      (generate_embeddings ⟨some encodeUnit⟩ ⟨["a"], true⟩).2 = .ok resp ∧
      resp.embeddings = [[1]] ∧
      resp.embeddings.length = (["a"] : List String).length :=
  embed_count_and_order ⟨some encodeUnit⟩ ⟨["a"], true⟩ encodeUnit [[1]]
    rfl (by simp) (by simp) rfl rfl

/-- C2: a POST /embed request is rejected with status 503 exactly when
the model is not loaded; when the model is loaded it is rejected with
status 400 exactly when the texts list is empty or longer than 100 (so
a batch of exactly 100 passes validation), independent of the encode
function held in the state. -/
theorem embed_status_codes (st : ServiceState) (req : EmbeddingRequest) :
    (errorStatus (generate_embeddings st req).2 503 ↔ st.model = none) ∧
    (st.model ≠ none →
      (errorStatus (generate_embeddings st req).2 400 ↔
        (req.texts = [] ∨ req.texts.length > 100))) := by
  obtain ⟨m⟩ := st
  cases m with
  | none =>
    exact ⟨by simp [generate_embeddings, errorStatus],
           fun h => absurd rfl h⟩
  | some encode =>
    by_cases h1 : req.texts = []
    · exact ⟨by simp [generate_embeddings, errorStatus, h1],
             fun _ => by simp [generate_embeddings, errorStatus, h1]⟩
    · by_cases h2 : req.texts.length > 100
      · exact ⟨by simp [generate_embeddings, errorStatus, h1, h2],
               fun _ => by simp [generate_embeddings, errorStatus, h1, h2]⟩
      · cases henc : encode req.texts req.normalize with
        | error e =>
          exact ⟨by simp [generate_embeddings, errorStatus, h1, h2, henc],
                 fun _ => by
                   simp [generate_embeddings, errorStatus, h1, h2, henc]⟩
        | ok E =>
          exact ⟨by simp [generate_embeddings, errorStatus, h1, h2, henc],
                 fun _ => by
                   simp [generate_embeddings, errorStatus, h1, h2, henc]⟩

/-- Witness for embed_status_codes: an unloaded state yields 503. -/
theorem embed_status_codes_witness :
    errorStatus (generate_embeddings ⟨none⟩ ⟨["a"], true⟩).2 503 :=
  (embed_status_codes ⟨none⟩ ⟨["a"], true⟩).1.mpr rfl

/-- C3: in every successful response, if the encode output has uniform
vector length d then every returned vector has length d, and the
dimensions field is the length of the first returned vector, 0 when the
embeddings list is empty. -/
theorem embed_uniform_dimensions
    (st : ServiceState) (req : EmbeddingRequest) (encode : EncodeFn)
    (resp : EmbeddingResponse) (d : Nat)
    (hm : st.model = some encode)
    (hunif : ∀ E, encode req.texts req.normalize = .ok E → allLength d E)
    (hok : (generate_embeddings st req).2 = .ok resp) :
    allLength d resp.embeddings ∧
      resp.dimensions = dimensionsOf resp.embeddings := by
  unfold generate_embeddings at hok
  rw [hm] at hok
  by_cases h1 : req.texts = []
  · simp [h1] at hok
  · by_cases h2 : req.texts.length > 100
    · simp [h1, h2] at hok
    · cases henc : encode req.texts req.normalize with
      | error e => simp [h1, h2, henc] at hok
      | ok E =>
        simp [h1, h2, henc] at hok
        subst hok
        exact ⟨hunif E henc, rfl⟩

/-- Witness for embed_uniform_dimensions at a concrete loaded state. -/
theorem embed_uniform_dimensions_witness :
    allLength 1 (⟨[[1]], MODEL_NAME, 1⟩ : EmbeddingResponse).embeddings ∧
      (⟨[[1]], MODEL_NAME, 1⟩ : EmbeddingResponse).dimensions =
        dimensionsOf (⟨[[1]], MODEL_NAME, 1⟩ : EmbeddingResponse).embeddings :=
  embed_uniform_dimensions ⟨some encodeUnit⟩ ⟨["a"], true⟩ encodeUnit
    ⟨[[1]], MODEL_NAME, 1⟩ 1 rfl
    (by intro E h
        cases h
        simp [allLength])
    rfl

/-- C4: when validation passes and the encode call raises, the handler
answers status 500 carrying the exception message, returns no
embeddings, and leaves the service state unchanged. -/
theorem embed_encode_failure
    (st : ServiceState) (req : EmbeddingRequest) (encode : EncodeFn)
    (msg : String)
    (hm : st.model = some encode)
    (hne : req.texts ≠ [])
    (hle : req.texts.length ≤ 100)
    (henc : encode req.texts req.normalize = .error msg) :
    generate_embeddings st req = (st, .error ⟨500, msg⟩) := by
  unfold generate_embeddings
  rw [hm]
  simp only [if_neg hne, if_neg (by omega : ¬req.texts.length > 100), henc]

/-- Witness for embed_encode_failure with an always-raising encoder. -/
theorem embed_encode_failure_witness :
    generate_embeddings ⟨some encodeFail⟩ ⟨["a"], true⟩ =
      (⟨some encodeFail⟩, .error ⟨500, "boom"⟩) :=
  embed_encode_failure ⟨some encodeFail⟩ ⟨["a"], true⟩ encodeFail "boom"
    rfl (by simp) (by simp) rfl

/-- C5: for a valid request with normalize set to true, whenever the
encoder yields vectors whose squared L2 norm is within tol of 1, every
vector of the successful response satisfies the same bound: the handler
returns the encoder output unchanged. -/
theorem embed_normalized_vectors
    (st : ServiceState) (req : EmbeddingRequest) (encode : EncodeFn)
    (resp : EmbeddingResponse) (tol : ℚ)
    (hm : st.model = some encode)
    (hn : req.normalize = true)
    (hnorm : ∀ E, encode req.texts true = .ok E →
      ∀ v ∈ E, |sqNorm v - 1| ≤ tol)
    (hok : (generate_embeddings st req).2 = .ok resp) :
    ∀ v ∈ resp.embeddings, |sqNorm v - 1| ≤ tol := by
  unfold generate_embeddings at hok
  rw [hm] at hok
  by_cases h1 : req.texts = []
  · simp [h1] at hok
  · by_cases h2 : req.texts.length > 100
    · simp [h1, h2] at hok
    · rw [hn] at hok
      cases henc : encode req.texts true with
      | error e => simp [h1, h2, henc] at hok
      | ok E =>
        simp [h1, h2, henc] at hok
        subst hok
        exact hnorm E henc

/-- Witness for embed_normalized_vectors with a unit-vector encoder
and zero tolerance. -/
theorem embed_normalized_vectors_witness :
    |sqNorm [1] - 1| ≤ (0 : ℚ) :=
  embed_normalized_vectors ⟨some encodeUnit⟩ ⟨["a"], true⟩ encodeUnit
    ⟨[[1]], MODEL_NAME, 1⟩ 0 rfl rfl
    (by intro E h
        cases h
        intro v hv
        simp only [List.map_cons, List.map_nil, List.mem_singleton] at hv
        subst hv
        simp [sqNorm])
    rfl
    [1] (by simp)

/-- C6: the model_loaded field of the GET /health response is true
exactly when the model global holds a loaded model. -/
theorem health_reports_model_loaded (st : ServiceState) :
    (health_check st).2.model_loaded = true ↔ st.model ≠ none := by
  simp [health_check, Option.isSome_iff_ne_none]

/-- C7: a request body omitting the normalize field parses to a request
with normalize equal to true, and the handler treats it exactly as a
request with normalize explicitly true, so encode runs with
normalization enabled. -/
theorem embed_default_normalize_true (ts : List String) :
    (parseEmbedBody ⟨ts, none⟩).normalize = true ∧
    ∀ st : ServiceState,
      generate_embeddings st (parseEmbedBody ⟨ts, none⟩) =
        generate_embeddings st ⟨ts, true⟩ :=
  ⟨rfl, fun _ => rfl⟩

/-- C8: none of the three request handlers changes the service state:
the model reference is read-only during request handling. -/
theorem handlers_preserve_state (st : ServiceState)
    (req : EmbeddingRequest) :
    (generate_embeddings st req).1 = st ∧
      (health_check st).1 = st ∧ (root st).1 = st := by
  refine ⟨?_, rfl, rfl⟩
  unfold generate_embeddings
  split
  · rfl
  · split
    · rfl
    · split
      · rfl
      · split <;> rfl

/-- C9: the status field of the GET /health response is the constant
string healthy, regardless of whether the model has loaded. -/
theorem health_status_always_healthy (st : ServiceState) :
    (health_check st).2.status = "healthy" := rfl

/-- C10: when the encoder returns one vector per input, every
successful response has a non-empty embeddings list, so the dimensions
field is computed from the first vector and the zero branch of the
dimensions expression is never taken. -/
theorem embed_dimensions_zero_unreachable
    (st : ServiceState) (req : EmbeddingRequest) (encode : EncodeFn)
    (resp : EmbeddingResponse)
    (hm : st.model = some encode)
    (hcount : ∀ E, encode req.texts req.normalize = .ok E →
      E.length = req.texts.length)
    (hok : (generate_embeddings st req).2 = .ok resp) :
    resp.embeddings ≠ [] ∧
      ∃ v vs, resp.embeddings = v :: vs ∧ resp.dimensions = v.length := by
  unfold generate_embeddings at hok
  rw [hm] at hok
  by_cases h1 : req.texts = []
  · simp [h1] at hok
  · by_cases h2 : req.texts.length > 100
    · simp [h1, h2] at hok
    · cases henc : encode req.texts req.normalize with
      | error e => simp [h1, h2, henc] at hok
      | ok E =>
        simp [h1, h2, henc] at hok
        subst hok
        cases E with
        | nil =>
          have h0 : req.texts.length = 0 := by
            simpa using (hcount [] henc).symm
          exact absurd (List.length_eq_zero.mp h0) h1
        | cons v vs =>
          exact ⟨by simp, v, vs, rfl, rfl⟩

/-- Witness for embed_dimensions_zero_unreachable at a concrete loaded
state and one-element batch. -/
theorem embed_dimensions_zero_unreachable_witness :
    (⟨[[1]], MODEL_NAME, 1⟩ : EmbeddingResponse).embeddings ≠ [] ∧
      ∃ v vs,
        (⟨[[1]], MODEL_NAME, 1⟩ : EmbeddingResponse).embeddings = v :: vs ∧
        (⟨[[1]], MODEL_NAME, 1⟩ : EmbeddingResponse).dimensions = v.length :=
  embed_dimensions_zero_unreachable ⟨some encodeUnit⟩ ⟨["a"], true⟩
    encodeUnit ⟨[[1]], MODEL_NAME, 1⟩ rfl
    (by intro E h
        cases h
        rfl)
    rfl
